import Mathlib

/-!
Verification development for the notu-api repository: a shallow embedding of the
data model (src/src/models/User.ts, src/src/models/Note.ts) and of the request
handlers in src/src/routes/notes.ts and the auth/user router, together with
theorems settling the specification claims about them.

Conventions of the embedding:
* Mongo ObjectId values are compared in the source through `toString()`; ids are
  embedded as `String`.
* A Mongo collection is a list of documents carrying their own `id` field
  (the `_id`); `findBy` embeds `findById`/`findOne` by id, `saveBy` embeds
  `document.save()` of a previously fetched document (overwrite by id).
* Dates are embedded as `Nat` (milliseconds); each handler that reads the clock
  takes the current time as an explicit parameter.
* The Cloudinary upload collaborator is an explicit function parameter
  `upload : String -> UploadResult`; `Date.now().toString()` id generation is the
  explicit parameter `genId`.
* Missing (undefined) request-body fields are `Option` values; strings compared
  against JS falsiness are tested against the empty string.
-/

namespace Notu

/-! ### String constants used by the handlers -/

def emptyStr : String := ""

def strTrue : String := "true"

def dataMark : String := "data:"

def strUntitled : String := "Untitled"

def strCopySuffix : String := " (Copy)"

def defaultColor : String := "#E9D5FF"

def errNoteNotFound : String := "Note not found"

def errNotInTrash : String := "Note not found in trash"

def msgPermDeleted : String := "Note permanently deleted"

def msgMovedTrash : String := "Note moved to trash"

def msgRestored : String := "Note restored successfully"

def errAllFields : String := "All fields are required"

def errPwdLen : String := "Password must be at least 6 characters"

def errEmailTaken : String := "Email already registered"

def errCannotLikePrivate : String := "Cannot like private note"

def errCannotDupPrivate : String := "Cannot duplicate private note"

def errNotAuthorizedView : String := "Not authorized to view notes"

def errProfilePrivate : String := "User profile is private"

def errUserNotFound : String := "User not found"

/-! ### Data model -/

abbrev UserId := String

/-- Embedded image of a note (ImageSchema in src/src/models/Note.ts). -/
structure Image where
  id : String
  url : String
  publicId : String
deriving DecidableEq

/-- A Note document (NoteSchema in src/src/models/Note.ts); `id` is the `_id`. -/
structure Note where
  id : String
  title : String
  content : String
  color : String
  images : List Image
  date : Nat
  userId : String
  isPinned : Bool
  isArchived : Bool
  isDeleted : Bool
  deletedAt : Option Nat
  isPublic : Bool
  likes : List UserId
deriving DecidableEq

/-- A User document (UserSchema in src/src/models/User.ts); `id` is the `_id`. -/
structure UserRec where
  id : UserId
  email : String
  password : String
  name : String
  avatar : String
  bio : String
  isPrivate : Bool
  authProvider : String
  refreshToken : Option String
  friends : List UserId
  friendRequests : List UserId
  sentFriendRequests : List UserId
deriving DecidableEq

abbrev UserDB := List UserRec

abbrev NoteDB := List Note

/-! ### Collection access: findById / findOne by id, and document save -/

/-- `findById`: first document whose key equals `k`. -/
def findBy (key : α → String) (db : List α) (k : String) : Option α :=
  db.find? (fun x => decide (key x = k))

/-- `document.save()` for a document previously fetched by id: every stored
document with the same key is overwritten. -/
def saveBy (key : α → String) (db : List α) (v : α) : List α :=
  db.map (fun x => if key x = key v then v else x)

def findUser (udb : UserDB) (uid : UserId) : Option UserRec :=
  findBy UserRec.id udb uid

def saveUser (udb : UserDB) (u : UserRec) : UserDB :=
  saveBy UserRec.id udb u

def findNote (ndb : NoteDB) (nid : String) : Option Note :=
  findBy Note.id ndb nid

def saveNote (ndb : NoteDB) (n : Note) : NoteDB :=
  saveBy Note.id ndb n

/-- `Note.findOne(\x7b _id, userId \x7d)` (owner-scoped fetch). -/
def findOneOwned (ndb : NoteDB) (nid : String) (uid : UserId) : Option Note :=
  match findNote ndb nid with
  | some n => if n.userId = uid then some n else none
  | none => none

/-- `Note.findOne(\x7b _id, userId, isDeleted: true \x7d)` (trash-scoped fetch). -/
def findOneTrash (ndb : NoteDB) (nid : String) (uid : UserId) : Option Note :=
  match findNote ndb nid with
  | some n => if n.userId = uid ∧ n.isDeleted = true then some n else none
  | none => none

/-! ### Friend lifecycle (auth/user router, src/unnamed/part_000) -/

/-- POST /friends/request/:userId (src/unnamed/part_000 lines 330-365). -/
def sendFriendRequestH (udb : UserDB) (me target : UserId) : Nat × UserDB :=
  if target = me then (400, udb)
  else
    match findUser udb me, findUser udb target with
    | some currentUser, some targetUser =>
      if target ∈ currentUser.friends then (400, udb)
      else if target ∈ currentUser.sentFriendRequests then (400, udb)
      else
        let cu := { currentUser with
          sentFriendRequests := currentUser.sentFriendRequests ++ [targetUser.id] }
        let tu := { targetUser with
          friendRequests := targetUser.friendRequests ++ [currentUser.id] }
        (200, saveUser (saveUser udb cu) tu)
    | _, _ => (404, udb)

/-- POST /friends/accept/:userId (src/unnamed/part_000 lines 368-402). -/
def acceptFriendRequestH (udb : UserDB) (me requester : UserId) : Nat × UserDB :=
  match findUser udb me, findUser udb requester with
  | some currentUser, some requesterUser =>
    if requester ∉ currentUser.friendRequests then (400, udb)
    else
      let cu := { currentUser with
        friendRequests := currentUser.friendRequests.filter (fun f => decide (f ≠ requester)),
        friends := currentUser.friends ++ [requesterUser.id] }
      let ru := { requesterUser with
        sentFriendRequests := requesterUser.sentFriendRequests.filter (fun f => decide (f ≠ me)),
        friends := requesterUser.friends ++ [currentUser.id] }
      (200, saveUser (saveUser udb cu) ru)
  | _, _ => (404, udb)

/-- POST /friends/decline/:userId (src/unnamed/part_000 lines 405-432). -/
def declineFriendRequestH (udb : UserDB) (me requester : UserId) : Nat × UserDB :=
  match findUser udb me, findUser udb requester with
  | some currentUser, some requesterUser =>
    let cu := { currentUser with
      friendRequests := currentUser.friendRequests.filter (fun f => decide (f ≠ requester)) }
    let ru := { requesterUser with
      sentFriendRequests := requesterUser.sentFriendRequests.filter (fun f => decide (f ≠ me)) }
    (200, saveUser (saveUser udb cu) ru)
  | _, _ => (404, udb)

/-- DELETE /friends/:userId (src/unnamed/part_000 lines 435-458). -/
def removeFriendH (udb : UserDB) (me friendId : UserId) : Nat × UserDB :=
  match findUser udb me, findUser udb friendId with
  | some currentUser, some friendUser =>
    let cu := { currentUser with
      friends := currentUser.friends.filter (fun f => decide (f ≠ friendId)) }
    let fu := { friendUser with
      friends := friendUser.friends.filter (fun f => decide (f ≠ me)) }
    (200, saveUser (saveUser udb cu) fu)
  | _, _ => (404, udb)

/-! ### Registration (auth router, src/unnamed/part_000 lines 17-60) -/

/-- JS `toLowerCase()`, embedded as a character-wise lowering. -/
def toLowerStr (s : String) : String := ⟨s.data.map Char.toLower⟩

/-- Schema defaults of UserSchema applied by `new User(\x7b email, password, name \x7d)`. -/
def defaultUserFields : UserRec :=
  { id := "", email := "", password := "", name := "", avatar := "", bio := "",
    isPrivate := false, authProvider := "email", refreshToken := none,
    friends := [], friendRequests := [], sentFriendRequests := [] }

structure RegResp where
  status : Nat
  error : Option String
deriving DecidableEq

/-- POST /register. `hash` embeds the bcrypt pre-save hook of UserSchema;
`newId` is the fresh ObjectId of the new document; `refreshTok` the generated
refresh token. Empty strings embed missing (JS-falsy) body fields. -/
def registerH (hash : String → String) (udb : UserDB) (email password name : String)
    (newId : UserId) (refreshTok : String) : RegResp × UserDB :=
  if email = "" ∨ password = "" ∨ name = "" then
    ({ status := 400, error := some errAllFields }, udb)
  else if password.length < 6 then
    ({ status := 400, error := some errPwdLen }, udb)
  else
    match udb.find? (fun u => decide (u.email = toLowerStr email)) with
    | some _ => ({ status := 400, error := some errEmailTaken }, udb)
    | none =>
      let user : UserRec :=
        { defaultUserFields with
          id := newId, email := toLowerStr email, password := hash password, name := name,
          refreshToken := some refreshTok }
      ({ status := 201, error := none }, udb ++ [user])

/-! ### Image processing loop of POST / and PUT /:id (src/src/routes/notes.ts) -/

structure UploadResult where
  url : String
  publicId : String
deriving DecidableEq

/-- JS `url.startsWith(pre)`, embedded as a character-list prefix test. -/
def startsWithStr (s pre : String) : Bool := pre.data.isPrefixOf s.data

/-- One step of the upload loop: a data-URL image is replaced by its uploaded
copy (id kept when truthy, else freshly generated), any other image is kept
as given. `i` is the iteration index feeding the id generator. -/
def processOne (upload : String → UploadResult) (genId : Nat → String)
    (i : Nat) (img : Image) : Image :=
  if startsWithStr img.url dataMark then
    { id := if img.id = "" then genId i else img.id,
      url := (upload img.url).url,
      publicId := (upload img.url).publicId }
  else img

def processImagesFrom (upload : String → UploadResult) (genId : Nat → String) :
    Nat → List Image → List Image
  | _, [] => []
  | i, img :: rest => processOne upload genId i img :: processImagesFrom upload genId (i + 1) rest

def processImages (upload : String → UploadResult) (genId : Nat → String)
    (images : List Image) : List Image :=
  processImagesFrom upload genId 0 images

/-! ### Note handlers (src/src/routes/notes.ts) -/

structure CreateBody where
  title : String
  content : Option String
  color : Option String
  images : Option (List Image)
  isPinned : Option Bool
deriving DecidableEq

/-- POST / (create note, lines 52-90). Unset fields of `new Note(...)` take the
NoteSchema defaults: deletedAt null, isPublic true, likes []. -/
def createNoteH (upload : String → UploadResult) (genId : Nat → String)
    (ndb : NoteDB) (userId : UserId) (body : CreateBody) (now : Nat) (newId : String) :
    Note × NoteDB :=
  let uploadedImages := processImages upload genId (body.images.getD [])
  let note : Note :=
    { id := newId,
      title := if body.title = "" then strUntitled else body.title,
      content := body.content.getD emptyStr,
      color := body.color.getD defaultColor,
      images := uploadedImages,
      userId := userId,
      date := now,
      isPinned := body.isPinned.getD false,
      isArchived := false,
      isDeleted := false,
      deletedAt := none,
      isPublic := true,
      likes := [] }
  (note, ndb ++ [note])

structure UpdateBody where
  title : String
  content : Option String
  color : Option String
  images : Option (List Image)
  isPinned : Option Bool
  isArchived : Option Bool
deriving DecidableEq

structure UpdateResult where
  status : Nat
  removedPublicIds : List String
deriving DecidableEq

/-- PUT /:id (update note, lines 93-152). `removedPublicIds` records the
Cloudinary deletions performed for images dropped from the note. -/
def updateNoteH (upload : String → UploadResult) (genId : Nat → String)
    (ndb : NoteDB) (noteId : String) (userId : UserId) (body : UpdateBody) (now : Nat) :
    UpdateResult × NoteDB :=
  match findOneOwned ndb noteId userId with
  | none => ({ status := 404, removedPublicIds := [] }, ndb)
  | some existingNote =>
    let uploadedImages := processImages upload genId (body.images.getD [])
    let newImageIds : List String := (body.images.getD []).map (fun i => i.id)
    let removedImages := existingNote.images.filter (fun i => decide (i.id ∉ newImageIds))
    let note : Note :=
      { existingNote with
        title := if body.title = "" then strUntitled else body.title,
        content := body.content.getD existingNote.content,
        color := body.color.getD existingNote.color,
        images := uploadedImages,
        date := now,
        isPinned := body.isPinned.getD existingNote.isPinned,
        isArchived := body.isArchived.getD existingNote.isArchived }
    ({ status := 200,
       removedPublicIds :=
         (removedImages.filter (fun i => decide (i.publicId ≠ ""))).map (fun i => i.publicId) },
      saveNote ndb note)

structure MsgResp where
  status : Nat
  text : String
deriving DecidableEq

/-- DELETE /:id (lines 155-184): permanent removal when the query says
permanent=true, otherwise soft delete into the trash. -/
def deleteNoteH (ndb : NoteDB) (noteId : String) (userId : UserId)
    (qpermanent : Option String) (now : Nat) : MsgResp × NoteDB :=
  match findOneOwned ndb noteId userId with
  | none => ({ status := 404, text := errNoteNotFound }, ndb)
  | some note =>
    if qpermanent = some strTrue then
      ({ status := 200, text := msgPermDeleted }, ndb.filter (fun n => decide (n.id ≠ noteId)))
    else
      ({ status := 200, text := msgMovedTrash },
        saveNote ndb { note with isDeleted := true, deletedAt := some now })

/-- POST /:id/restore (lines 187-204). -/
def restoreNoteH (ndb : NoteDB) (noteId : String) (userId : UserId) : MsgResp × NoteDB :=
  match findOneTrash ndb noteId userId with
  | none => ({ status := 404, text := errNotInTrash }, ndb)
  | some note =>
    ({ status := 200, text := msgRestored },
      saveNote ndb { note with isDeleted := false, deletedAt := none })

/-- DELETE /trash/empty (lines 207-224). -/
def emptyTrashH (ndb : NoteDB) (userId : UserId) : Nat × NoteDB :=
  (200, ndb.filter (fun n => !(decide (n.userId = userId) && n.isDeleted)))

structure LikeResp where
  status : Nat
  error : Option String
  liked : Option Bool
  likesCount : Option Nat
deriving DecidableEq

/-- POST /:id/like (lines 268-301): toggle the requesting user inside the
likes array of the note. -/
def toggleLikeH (ndb : NoteDB) (noteId : String) (userId : UserId) : LikeResp × NoteDB :=
  match findNote ndb noteId with
  | none => ({ status := 404, error := some errNoteNotFound, liked := none, likesCount := none }, ndb)
  | some note =>
    if note.isPublic = false ∧ note.userId ≠ userId then
      ({ status := 403, error := some errCannotLikePrivate, liked := none, likesCount := none }, ndb)
    else
      let alreadyLiked : Bool := decide (userId ∈ note.likes)
      let newLikes : List UserId :=
        if alreadyLiked then note.likes.filter (fun i => decide (i ≠ userId))
        else note.likes ++ [userId]
      ({ status := 200, error := none, liked := some (!alreadyLiked),
         likesCount := some newLikes.length },
        saveNote ndb { note with likes := newLikes })

/-- The duplicated document built by POST /:id/duplicate (lines 331-343). -/
def dupNote (orig : Note) (userId : UserId) (now : Nat) (newId : String) : Note :=
  { id := newId,
    title := orig.title ++ strCopySuffix,
    content := orig.content,
    color := orig.color,
    images := orig.images,
    userId := userId,
    date := now,
    isPinned := false,
    isArchived := false,
    isDeleted := false,
    deletedAt := none,
    isPublic := true,
    likes := [] }

structure DupResp where
  status : Nat
  note : Option Note
deriving DecidableEq

/-- POST /:id/duplicate (lines 304-352). -/
def duplicateNoteH (udb : UserDB) (ndb : NoteDB) (noteId : String) (userId : UserId)
    (now : Nat) (newId : String) : DupResp × NoteDB :=
  match findNote ndb noteId with
  | none => ({ status := 404, note := none }, ndb)
  | some originalNote =>
    if originalNote.isPublic = false ∧ originalNote.userId ≠ userId then
      match findUser udb originalNote.userId, findUser udb userId with
      | some _noteOwner, some currentUser =>
        if originalNote.userId ∈ currentUser.friends then
          ({ status := 201, note := some (dupNote originalNote userId now newId) },
            ndb ++ [dupNote originalNote userId now newId])
        else ({ status := 403, note := none }, ndb)
      | _, _ => ({ status := 404, note := none }, ndb)
    else
      ({ status := 201, note := some (dupNote originalNote userId now newId) },
        ndb ++ [dupNote originalNote userId now newId])

/-- PUT /:id/visibility (lines 355-376). -/
def setVisibilityH (ndb : NoteDB) (noteId : String) (userId : UserId) (isPublic : Bool) :
    Nat × NoteDB :=
  match findOneOwned ndb noteId userId with
  | none => (404, ndb)
  | some note => (200, saveNote ndb { note with isPublic := isPublic })

/-! ### Note listing (GET / lines 15-36, GET /user/:userId lines 379-436) -/

/-- The Mongo filter built by GET / from the archived / deleted query
parameters, applied to a note. -/
def listFilter (qarchived qdeleted : Option String) (userId : UserId) (n : Note) : Bool :=
  decide (n.userId = userId) &&
    (if qdeleted = some strTrue then n.isDeleted
     else if qarchived = some strTrue then !n.isDeleted && n.isArchived
     else !n.isDeleted && !n.isArchived)

/-- The sort key order of `.sort(\x7b isPinned: -1, date: -1 \x7d)`: pinned before
unpinned, later dates first. -/
def noteLE (a b : Note) : Prop :=
  (a.isPinned = true ∧ b.isPinned = false) ∨ (a.isPinned = b.isPinned ∧ b.date ≤ a.date)

instance (a b : Note) : Decidable (noteLE a b) :=
  decidable_of_iff
    ((a.isPinned = true ∧ b.isPinned = false) ∨ (a.isPinned = b.isPinned ∧ b.date ≤ a.date))
    Iff.rfl

instance : IsTotal Note noteLE where
  total a b := by
    unfold noteLE
    cases ha : a.isPinned <;> cases hb : b.isPinned <;> simp <;> omega

instance : IsTrans Note noteLE where
  trans a b c hab hbc := by
    rcases hab with ⟨ha, hb⟩ | ⟨hab, hd⟩ <;> rcases hbc with ⟨hb2, hc⟩ | ⟨hbc2, hd2⟩
    · simp [hb] at hb2
    · exact Or.inl ⟨ha, hbc2.symm.trans hb⟩
    · exact Or.inl ⟨hab.trans hb2, hc⟩
    · exact Or.inr ⟨hab.trans hbc2, le_trans hd2 hd⟩

/-- `.sort(\x7b isPinned: -1, date: -1 \x7d)` on a query result. -/
def sortNotes (l : List Note) : List Note :=
  l.insertionSort noteLE

/-- GET / : list own notes, filtered by view and sorted. -/
def getNotesH (ndb : NoteDB) (userId : UserId) (qarchived qdeleted : Option String) :
    List Note :=
  sortNotes (ndb.filter (listFilter qarchived qdeleted userId))

/-- The response item shape of GET /user/:userId (lines 416-429). -/
structure NoteView where
  id : String
  title : String
  content : String
  color : String
  images : List Image
  date : Nat
  userId : String
  isPinned : Bool
  isPublic : Bool
  likesCount : Nat
  isLiked : Bool
  isOwn : Bool
deriving DecidableEq

def viewOf (currentUserId : UserId) (isOwn : Bool) (n : Note) : NoteView :=
  { id := n.id, title := n.title, content := n.content, color := n.color,
    images := n.images, date := n.date, userId := n.userId,
    isPinned := n.isPinned, isPublic := n.isPublic,
    likesCount := n.likes.length,
    isLiked := decide (currentUserId ∈ n.likes),
    isOwn := isOwn }

/-- GET /user/:userId (lines 379-436). -/
def getUserNotesH (udb : UserDB) (ndb : NoteDB) (currentUserId targetUserId : UserId) :
    Nat × List NoteView :=
  match findUser udb currentUserId, findUser udb targetUserId with
  | some currentUser, some targetUser =>
    let isFriend : Bool := decide (targetUserId ∈ currentUser.friends)
    let isOwn : Bool := decide (currentUserId = targetUserId)
    if !isOwn && !isFriend then (403, [])
    else if !isOwn && targetUser.isPrivate then (403, [])
    else
      let notes := sortNotes (ndb.filter (fun n =>
        decide (n.userId = targetUserId) && !n.isDeleted && !n.isArchived &&
          (isOwn || n.isPublic)))
      (200, notes.map (viewOf currentUserId isOwn))
  | _, _ => (404, [])

/-! ### The notes router: auth middleware ahead of every route
(src/src/routes/notes.ts line 12) -/

inductive NotesRoute where
  | listNotes (qarchived qdeleted : Option String)
  | getOne (noteId : String)
  | create (body : CreateBody) (newId : String)
  | update (noteId : String) (body : UpdateBody)
  | softDelete (noteId : String) (qpermanent : Option String)
  | restore (noteId : String)
  | emptyTrash
  | like (noteId : String)
  | duplicate (noteId : String) (newId : String)
  | visibility (noteId : String) (isPublic : Bool)
  | userNotes (targetUserId : UserId)
deriving DecidableEq

/-- What a notes-route response may carry back to the client, together with the
notes collection after the request. -/
structure RouteOutcome where
  status : Nat
  db : NoteDB
  notes : List Note
  views : List NoteView
deriving DecidableEq

/-- Dispatch of an authenticated request to the handler of its route. -/
def runNotesRoute (upload : String → UploadResult) (genId : Nat → String)
    (udb : UserDB) (ndb : NoteDB) (uid : UserId) (now : Nat) :
    NotesRoute → RouteOutcome
  | .listNotes qa qd =>
    { status := 200, db := ndb, notes := getNotesH ndb uid qa qd, views := [] }
  | .getOne noteId =>
    match findOneOwned ndb noteId uid with
    | none => { status := 404, db := ndb, notes := [], views := [] }
    | some note => { status := 200, db := ndb, notes := [note], views := [] }
  | .create body newId =>
    let r := createNoteH upload genId ndb uid body now newId
    { status := 201, db := r.2, notes := [r.1], views := [] }
  | .update noteId body =>
    let r := updateNoteH upload genId ndb noteId uid body now
    { status := r.1.status, db := r.2,
      notes := (findNote r.2 noteId).toList, views := [] }
  | .softDelete noteId qp =>
    let r := deleteNoteH ndb noteId uid qp now
    { status := r.1.status, db := r.2, notes := [], views := [] }
  | .restore noteId =>
    let r := restoreNoteH ndb noteId uid
    { status := r.1.status, db := r.2, notes := [], views := [] }
  | .emptyTrash =>
    let r := emptyTrashH ndb uid
    { status := r.1, db := r.2, notes := [], views := [] }
  | .like noteId =>
    let r := toggleLikeH ndb noteId uid
    { status := r.1.status, db := r.2, notes := [], views := [] }
  | .duplicate noteId newId =>
    let r := duplicateNoteH udb ndb noteId uid now newId
    { status := r.1.status, db := r.2, notes := r.1.note.toList, views := [] }
  | .visibility noteId isPublic =>
    let r := setVisibilityH ndb noteId uid isPublic
    { status := r.1, db := r.2, notes := [], views := [] }
  | .userNotes target =>
    let r := getUserNotesH udb ndb uid target
    { status := r.1, db := ndb, notes := [], views := r.2 }

/-- Modelled from the spec: src/middleware/auth.ts is not among the sources; per
the spec control flow (HTTP request, then auth check, then the single document
read or write, then the JSON response) the middleware registered for every notes
route by router.use(authMiddleware) at src/src/routes/notes.ts line 12 rejects a
request that carries no authenticated user with 401 before any route handler
runs. `auth` is the authenticated user id extracted by the middleware, `none`
when authentication fails. -/
def notesApp (upload : String → UploadResult) (genId : Nat → String)
    (udb : UserDB) (ndb : NoteDB) (auth : Option UserId) (now : Nat)
    (route : NotesRoute) : RouteOutcome :=
  match auth with
  | none => { status := 401, db := ndb, notes := [], views := [] }
  | some uid => runNotesRoute upload genId udb ndb uid now route

/-- The friends list of a user id, empty when the user does not exist. -/
def friendsOf (udb : UserDB) (a : UserId) : List UserId :=
  match findUser udb a with
  | some u => u.friends
  | none => []

/-- The friendship-symmetry invariant of the spec: u appears among the friends
of v exactly when v appears among the friends of u. -/
def SymFriends (udb : UserDB) : Prop :=
  ∀ a b : UserId, b ∈ friendsOf udb a ↔ a ∈ friendsOf udb b

/-! ### Concrete instances used to instantiate the theorems -/

def idU : String := "u"

def idV : String := "v"

def idO : String := "o"

def idR : String := "r"

def nid1 : String := "n1"

def nid2 : String := "n2"

def nid9 : String := "n9"

/-- Two users with a pending friend request and no friends yet. -/
def c1db : UserDB :=
  [ { defaultUserFields with id := idU, friendRequests := [idV] },
    { defaultUserFields with id := idV, sentFriendRequests := [idU] } ]

def ownerRec : UserRec := { defaultUserFields with id := idO }

def reqRec : UserRec := { defaultUserFields with id := idR }

/-- Owner and requester with no friends. -/
def c2udb : UserDB := [ownerRec, reqRec]

/-- A private note of user idO. -/
def notePriv : Note :=
  { id := nid1, title := "secret", content := "", color := defaultColor, images := [],
    date := 5, userId := idO, isPinned := false, isArchived := false, isDeleted := false,
    deletedAt := none, isPublic := false, likes := [] }

/-- A public note of user idO liked by idO. -/
def notePub : Note :=
  { id := nid2, title := "open", content := "", color := defaultColor, images := [],
    date := 7, userId := idO, isPinned := false, isArchived := false, isDeleted := false,
    deletedAt := none, isPublic := true, likes := [idO] }

/-- A trashed note of user idO. -/
def noteTrash : Note :=
  { id := nid9, title := "old", content := "", color := defaultColor, images := [],
    date := 2, userId := idO, isPinned := true, isArchived := false, isDeleted := true,
    deletedAt := some 3, isPublic := true, likes := [] }

def c2ndb : NoteDB := [notePriv, notePub, noteTrash]

def mailA : String := "Ada@Example.COM"

def pwd6 : String := "abcdef"

def shortPwd : String := "abc"

def nameA : String := "Ada"

def tok0 : String := "tok"

def hashId : String → String := fun s => s

def upload0 : String → UploadResult :=
  fun s => { url := "cdn/" ++ s, publicId := "pid/" ++ s }

def genId0 : Nat → String := fun i => toString i

def dataUrl : String := "data:image/png;base64,AAA"

def plainUrl : String := "https://img.example/a.png"

def imgData : Image := { id := "", url := dataUrl, publicId := "" }

def imgPlain : Image := { id := "i2", url := plainUrl, publicId := "p2" }

def imgs0 : List Image := [imgData, imgPlain]

def nidD : String := "d1"

def mailLower : String := "ada@example.com"

def c5User : UserRec := { defaultUserFields with id := idU, email := mailLower }

def c5db : UserDB := [c5User]

def body0 : CreateBody :=
  { title := "t", content := none, color := none, images := some imgs0, isPinned := none }

/-! ### Lemmas about collection access -/

theorem findBy_key {α : Type} (key : α → String) (db : List α) (k : String) (v : α)
    (h : findBy key db k = some v) : key v = k := by
  unfold findBy at h
  have := List.find?_some h
  simpa using this

theorem mem_of_findBy {α : Type} (key : α → String) (db : List α) (k : String) (v : α)
    (h : findBy key db k = some v) : v ∈ db := by
  unfold findBy at h
  exact List.mem_of_find?_eq_some h

theorem findBy_saveBy {α : Type} (key : α → String) (db : List α) (v : α) (x : String) :
    findBy key (saveBy key db v) x =
      if x = key v then (findBy key db (key v)).map (fun _ => v) else findBy key db x := by
  induction db with
  | nil => simp [findBy, saveBy]
  | cons a l ih =>
    simp only [findBy, saveBy, List.map_cons] at ih ⊢
    by_cases hak : key a = key v
    · by_cases hx : x = key v
      · have h1 : (fun e => decide (key e = x)) v = true := by
          simp only [decide_eq_true_eq]; exact hx.symm
        have h2 : (fun e => decide (key e = key v)) a = true := by
          simp only [decide_eq_true_eq]; exact hak
        rw [if_pos hak, if_pos hx, List.find?_cons_of_pos (p := fun e => decide (key e = x)) _ h1,
          List.find?_cons_of_pos (p := fun e => decide (key e = key v)) _ h2]
        simp
      · have h1 : ¬ (fun e => decide (key e = x)) v = true := by
          simp only [decide_eq_true_eq]; exact fun hc => hx hc.symm
        have h2 : ¬ (fun e => decide (key e = x)) a = true := by
          simp only [decide_eq_true_eq]; exact fun hc => hx (hc.symm.trans hak)
        rw [if_pos hak, if_neg hx, List.find?_cons_of_neg (p := fun e => decide (key e = x)) _ h1,
          List.find?_cons_of_neg (p := fun e => decide (key e = x)) _ h2, ih, if_neg hx]
    · by_cases hax : key a = x
      · have hx : ¬ x = key v := fun hxv => hak (hax.trans hxv)
        have h1 : (fun e => decide (key e = x)) a = true := by
          simp only [decide_eq_true_eq]; exact hax
        rw [if_neg hak, if_neg hx, List.find?_cons_of_pos (p := fun e => decide (key e = x)) _ h1,
          List.find?_cons_of_pos (p := fun e => decide (key e = x)) _ h1]
      · have h1 : ¬ (fun e => decide (key e = x)) a = true := by
          simp only [decide_eq_true_eq]; exact hax
        rw [if_neg hak, List.find?_cons_of_neg (p := fun e => decide (key e = x)) _ h1, ih]
        by_cases hx : x = key v
        · have h2 : ¬ (fun e => decide (key e = key v)) a = true := by
            simp only [decide_eq_true_eq]; exact hak
          rw [if_pos hx, if_pos hx, List.find?_cons_of_neg (p := fun e => decide (key e = key v)) _ h2]
        · rw [if_neg hx, if_neg hx, List.find?_cons_of_neg (p := fun e => decide (key e = x)) _ h1]

theorem findUser_saveUser (udb : UserDB) (u : UserRec) (x : UserId) :
    findUser (saveUser udb u) x =
      if x = u.id then (findUser udb u.id).map (fun _ => u) else findUser udb x :=
  findBy_saveBy UserRec.id udb u x

theorem friendsOf_eq_of_findUser (udb : UserDB) (a : UserId) (u : UserRec)
    (h : findUser udb a = some u) : friendsOf udb a = u.friends := by
  unfold friendsOf
  rw [h]

theorem friendsOf_save2 (udb : UserDB) (u1 u2 : UserRec) (x : UserId)
    (h1 : (findUser udb u1.id).isSome) (h2 : (findUser udb u2.id).isSome) :
    friendsOf (saveUser (saveUser udb u1) u2) x =
      if x = u2.id then u2.friends
      else if x = u1.id then u1.friends
      else friendsOf udb x := by
  unfold friendsOf
  rw [findUser_saveUser]
  by_cases hx2 : x = u2.id
  · rw [if_pos hx2, if_pos hx2, findUser_saveUser]
    by_cases h21 : u2.id = u1.id
    · rw [if_pos h21]
      cases ho : findUser udb u1.id with
      | none => rw [ho] at h1; simp at h1
      | some w => simp
    · rw [if_neg h21]
      cases ho : findUser udb u2.id with
      | none => rw [ho] at h2; simp at h2
      | some w => simp
  · rw [if_neg hx2, if_neg hx2, findUser_saveUser]
    by_cases hx1 : x = u1.id
    · rw [if_pos hx1, if_pos hx1]
      cases ho : findUser udb u1.id with
      | none => rw [ho] at h1; simp at h1
      | some w => simp
    · rw [if_neg hx1, if_neg hx1]

/-! ### Symmetry preservation helpers -/

theorem symFriends_of_pointwise (udb udb2 : UserDB) (h : SymFriends udb)
    (he : ∀ x, friendsOf udb2 x = friendsOf udb x) : SymFriends udb2 := by
  intro a b
  rw [he a, he b]
  exact h a b

theorem symFriends_add2 (udb udb2 : UserDB) (me other : UserId) (h : SymFriends udb)
    (hother : ∀ x, x ∈ friendsOf udb2 other ↔ x ∈ friendsOf udb other ∨ x = me)
    (hme : ∀ x, x ∈ friendsOf udb2 me ↔ x ∈ friendsOf udb me ∨ x = other)
    (helse : ∀ y, y ≠ other → y ≠ me → friendsOf udb2 y = friendsOf udb y) :
    SymFriends udb2 := by
  intro a b
  by_cases hao : a = other
  · subst hao
    by_cases hbo : b = a
    · subst hbo; rfl
    · by_cases hbm : b = me
      · subst hbm
        rw [hother, hme]
        constructor
        · intro _; right; rfl
        · intro _; right; rfl
      · rw [hother, helse b hbo hbm]
        constructor
        · rintro (hin | hbm2)
          · exact (h a b).mp hin
          · exact absurd hbm2 hbm
        · intro hin; left; exact (h a b).mpr hin
  · by_cases ham : a = me
    · subst ham
      by_cases hbo : b = other
      · subst hbo
        rw [hme, hother]
        constructor
        · intro _; right; rfl
        · intro _; right; rfl
      · by_cases hbm : b = a
        · subst hbm; rfl
        · rw [hme, helse b hbo hbm]
          constructor
          · rintro (hin | hbo2)
            · exact (h a b).mp hin
            · exact absurd hbo2 hbo
          · intro hin; left; exact (h a b).mpr hin
    · by_cases hbo : b = other
      · subst hbo
        rw [helse a hao ham, hother]
        constructor
        · intro hin; left; exact (h a b).mp hin
        · rintro (hin | ham2)
          · exact (h a b).mpr hin
          · exact absurd ham2 ham
      · by_cases hbm : b = me
        · subst hbm
          rw [helse a hao ham, hme]
          constructor
          · intro hin; left; exact (h a b).mp hin
          · rintro (hin | hao2)
            · exact (h a b).mpr hin
            · exact absurd hao2 hao
        · rw [helse a hao ham, helse b hbo hbm]
          exact h a b

theorem symFriends_remove2 (udb udb2 : UserDB) (me other : UserId) (h : SymFriends udb)
    (hother : ∀ x, x ∈ friendsOf udb2 other ↔ x ∈ friendsOf udb other ∧ x ≠ me)
    (hme : ∀ x, x ∈ friendsOf udb2 me ↔ x ∈ friendsOf udb me ∧ x ≠ other)
    (helse : ∀ y, y ≠ other → y ≠ me → friendsOf udb2 y = friendsOf udb y) :
    SymFriends udb2 := by
  intro a b
  by_cases hao : a = other
  · subst hao
    by_cases hbo : b = a
    · subst hbo; rfl
    · by_cases hbm : b = me
      · subst hbm
        rw [hother, hme]
        constructor
        · rintro ⟨_, hne⟩; exact absurd rfl hne
        · rintro ⟨_, hne⟩; exact absurd rfl hne
      · rw [hother, helse b hbo hbm]
        constructor
        · rintro ⟨hin, _⟩; exact (h a b).mp hin
        · intro hin; exact ⟨(h a b).mpr hin, hbm⟩
  · by_cases ham : a = me
    · subst ham
      by_cases hbo : b = other
      · subst hbo
        rw [hme, hother]
        constructor
        · rintro ⟨_, hne⟩; exact absurd rfl hne
        · rintro ⟨_, hne⟩; exact absurd rfl hne
      · by_cases hbm : b = a
        · subst hbm; rfl
        · rw [hme, helse b hbo hbm]
          constructor
          · rintro ⟨hin, _⟩; exact (h a b).mp hin
          · intro hin; exact ⟨(h a b).mpr hin, hbo⟩
    · by_cases hbo : b = other
      · subst hbo
        rw [helse a hao ham, hother]
        constructor
        · intro hin; exact ⟨(h a b).mp hin, ham⟩
        · rintro ⟨hin, _⟩; exact (h a b).mpr hin
      · by_cases hbm : b = me
        · subst hbm
          rw [helse a hao ham, hme]
          constructor
          · intro hin; exact ⟨(h a b).mp hin, hao⟩
          · rintro ⟨hin, _⟩; exact (h a b).mpr hin
        · rw [helse a hao ham, helse b hbo hbm]
          exact h a b

theorem friendsOf_save2_of_find (udb : UserDB) (me other : UserId) (cu tu u1 u2 : UserRec)
    (hme : findUser udb me = some cu) (hot : findUser udb other = some tu)
    (h1 : u1.id = me) (h2 : u2.id = other) (x : UserId) :
    friendsOf (saveUser (saveUser udb u1) u2) x =
      if x = other then u2.friends else if x = me then u1.friends else friendsOf udb x := by
  have hs1 : (findUser udb u1.id).isSome := by rw [h1, hme]; rfl
  have hs2 : (findUser udb u2.id).isSome := by rw [h2, hot]; rfl
  rw [friendsOf_save2 udb u1 u2 x hs1 hs2, h1, h2]

theorem symFriends_send (udb : UserDB) (me target : UserId) (h : SymFriends udb) :
    SymFriends (sendFriendRequestH udb me target).2 := by
  unfold sendFriendRequestH
  by_cases hself : target = me
  · simpa [hself] using h
  · rw [if_neg hself]
    cases hme : findUser udb me with
    | none => simpa using h
    | some cu =>
      cases hot : findUser udb target with
      | none => simpa using h
      | some tu =>
        simp only []
        by_cases h1 : target ∈ cu.friends
        · simpa [h1] using h
        · by_cases h2 : target ∈ cu.sentFriendRequests
          · simpa [h1, h2] using h
          · rw [if_neg h1, if_neg h2]
            have hcuid : cu.id = me := findBy_key UserRec.id udb me cu hme
            have htuid : tu.id = target := findBy_key UserRec.id udb target tu hot
            dsimp only
            apply symFriends_of_pointwise udb _ h
            intro x
            rw [friendsOf_save2_of_find udb me target cu tu _ _ hme hot _ _ x]
            · by_cases hxt : x = target
              · rw [if_pos hxt, hxt, friendsOf_eq_of_findUser udb target tu hot]
              · rw [if_neg hxt]
                by_cases hxm : x = me
                · rw [if_pos hxm, hxm, friendsOf_eq_of_findUser udb me cu hme]
                · rw [if_neg hxm]
            · exact hcuid
            · exact htuid

theorem symFriends_accept (udb : UserDB) (me requester : UserId) (h : SymFriends udb) :
    SymFriends (acceptFriendRequestH udb me requester).2 := by
  unfold acceptFriendRequestH
  cases hme : findUser udb me with
  | none => simpa using h
  | some cu =>
    cases hot : findUser udb requester with
    | none => simpa using h
    | some ru =>
      simp only []
      by_cases hreq : requester ∉ cu.friendRequests
      · simpa [hreq] using h
      · rw [if_neg hreq]
        have hcuid : cu.id = me := findBy_key UserRec.id udb me cu hme
        have hruid : ru.id = requester := findBy_key UserRec.id udb requester ru hot
        dsimp only
        apply symFriends_add2 udb _ me requester h
        · intro x
          rw [friendsOf_save2_of_find udb me requester cu ru _ _ hme hot _ _ requester]
          · rw [if_pos rfl, friendsOf_eq_of_findUser udb requester ru hot, hcuid]
            simp
          · exact hcuid
          · exact hruid
        · intro x
          rw [friendsOf_save2_of_find udb me requester cu ru _ _ hme hot _ _ me]
          · by_cases hmr : me = requester
            · rw [if_pos hmr]
              have hrc : ru = cu := by
                rw [← hmr] at hot
                rw [hme] at hot
                exact (Option.some_inj.mp hot).symm
              rw [hrc, hcuid, friendsOf_eq_of_findUser udb me cu hme, ← hmr]
              simp
            · rw [if_neg hmr, if_pos rfl, hruid, friendsOf_eq_of_findUser udb me cu hme]
              simp
          · exact hcuid
          · exact hruid
        · intro y hyr hym
          rw [friendsOf_save2_of_find udb me requester cu ru _ _ hme hot _ _ y]
          · rw [if_neg hyr, if_neg hym]
          · exact hcuid
          · exact hruid

theorem symFriends_decline (udb : UserDB) (me requester : UserId) (h : SymFriends udb) :
    SymFriends (declineFriendRequestH udb me requester).2 := by
  unfold declineFriendRequestH
  cases hme : findUser udb me with
  | none => simpa using h
  | some cu =>
    cases hot : findUser udb requester with
    | none => simpa using h
    | some ru =>
      simp only []
      have hcuid : cu.id = me := findBy_key UserRec.id udb me cu hme
      have hruid : ru.id = requester := findBy_key UserRec.id udb requester ru hot
      apply symFriends_of_pointwise udb _ h
      intro x
      rw [friendsOf_save2_of_find udb me requester cu ru _ _ hme hot _ _ x]
      · by_cases hxt : x = requester
        · rw [if_pos hxt, hxt, friendsOf_eq_of_findUser udb requester ru hot]
        · rw [if_neg hxt]
          by_cases hxm : x = me
          · rw [if_pos hxm, hxm, friendsOf_eq_of_findUser udb me cu hme]
          · rw [if_neg hxm]
      · exact hcuid
      · exact hruid

theorem symFriends_remove (udb : UserDB) (me friendId : UserId) (h : SymFriends udb) :
    SymFriends (removeFriendH udb me friendId).2 := by
  unfold removeFriendH
  cases hme : findUser udb me with
  | none => simpa using h
  | some cu =>
    cases hot : findUser udb friendId with
    | none => simpa using h
    | some fu =>
      simp only []
      have hcuid : cu.id = me := findBy_key UserRec.id udb me cu hme
      have hfuid : fu.id = friendId := findBy_key UserRec.id udb friendId fu hot
      apply symFriends_remove2 udb _ me friendId h
      · intro x
        rw [friendsOf_save2_of_find udb me friendId cu fu _ _ hme hot _ _ friendId]
        · rw [if_pos rfl, friendsOf_eq_of_findUser udb friendId fu hot]
          simp [List.mem_filter]
        · exact hcuid
        · exact hfuid
      · intro x
        rw [friendsOf_save2_of_find udb me friendId cu fu _ _ hme hot _ _ me]
        · by_cases hmf : me = friendId
          · rw [if_pos hmf]
            have hfc : fu = cu := by
              rw [← hmf] at hot
              rw [hme] at hot
              exact (Option.some_inj.mp hot).symm
            rw [hfc, friendsOf_eq_of_findUser udb me cu hme, ← hmf]
            simp [List.mem_filter]
          · rw [if_neg hmf, if_pos rfl, friendsOf_eq_of_findUser udb me cu hme]
            simp [List.mem_filter]
        · exact hcuid
        · exact hfuid
      · intro y hyf hym
        rw [friendsOf_save2_of_find udb me friendId cu fu _ _ hme hot _ _ y]
        · rw [if_neg hyf, if_neg hym]
        · exact hcuid
        · exact hfuid

theorem friendsOf_nil_of (udb : UserDB) (hall : ∀ u ∈ udb, u.friends = []) (x : UserId) :
    friendsOf udb x = [] := by
  unfold friendsOf
  cases hf : findUser udb x with
  | none => rfl
  | some u => exact hall u (mem_of_findBy UserRec.id udb x u hf)

theorem symFriends_of_all_nil (udb : UserDB) (hall : ∀ u ∈ udb, u.friends = []) :
    SymFriends udb := by
  intro a b
  rw [friendsOf_nil_of udb hall a, friendsOf_nil_of udb hall b]
  simp

/-- C1: friendship is symmetric. Starting from any state in which user u appears
in the friends list of v exactly when v appears in the friends list of u, each of
the four friend-lifecycle operations (send request, accept request, decline
request, remove friend) preserves that symmetry; the operations write both
documents in tandem. -/
theorem C1_friend_lifecycle_preserves_symmetry (udb : UserDB) (me other : UserId)
    (h : SymFriends udb) :
    SymFriends (sendFriendRequestH udb me other).2 ∧
    SymFriends (acceptFriendRequestH udb me other).2 ∧
    SymFriends (declineFriendRequestH udb me other).2 ∧
    SymFriends (removeFriendH udb me other).2 :=
  ⟨symFriends_send udb me other h, symFriends_accept udb me other h,
   symFriends_decline udb me other h, symFriends_remove udb me other h⟩

/-- Witness for C1 at a concrete two-user state with a pending friend request. -/
theorem C1_witness :
    SymFriends c1db ∧
    (SymFriends (sendFriendRequestH c1db idU idV).2 ∧
     SymFriends (acceptFriendRequestH c1db idU idV).2 ∧
     SymFriends (declineFriendRequestH c1db idU idV).2 ∧
     SymFriends (removeFriendH c1db idU idV).2) := by
  have hs : SymFriends c1db := symFriends_of_all_nil c1db (by decide)
  exact ⟨hs, C1_friend_lifecycle_preserves_symmetry c1db idU idV hs⟩

/-- C2: visibility is governed by isPublic plus friendship. For each endpoint
that gives a requester access to a note of another user (toggle like, duplicate,
list the notes of a user), when the note is not public and the requester is
neither the owner nor a member of the friends list of the owner, the request is
answered with 403 and the notes collection is unchanged (assuming the symmetric
friendship invariant, under which the friendship check of the code against the
requester friends list agrees with membership in the owner friends list). -/
theorem C2_private_note_access_forbidden (udb : UserDB) (ndb : NoteDB)
    (noteId : String) (userId : UserId) (now : Nat) (newId : String)
    (note : Note) (owner cur : UserRec)
    (hsym : SymFriends udb)
    (hn : findNote ndb noteId = some note)
    (hpub : note.isPublic = false)
    (hnotOwner : note.userId ≠ userId)
    (ho : findUser udb note.userId = some owner)
    (hc : findUser udb userId = some cur)
    (hfr : userId ∉ owner.friends) :
    ((toggleLikeH ndb noteId userId).1.status = 403 ∧
      (toggleLikeH ndb noteId userId).2 = ndb) ∧
    ((duplicateNoteH udb ndb noteId userId now newId).1.status = 403 ∧
      (duplicateNoteH udb ndb noteId userId now newId).2 = ndb) ∧
    ((getUserNotesH udb ndb userId note.userId).1 = 403 ∧
      (getUserNotesH udb ndb userId note.userId).2 = []) := by
  have hkey := hsym userId note.userId
  rw [friendsOf_eq_of_findUser udb userId cur hc,
    friendsOf_eq_of_findUser udb note.userId owner ho] at hkey
  have hncf : note.userId ∉ cur.friends := fun hmem => hfr (hkey.mp hmem)
  have hlike : toggleLikeH ndb noteId userId =
      ({ status := 403, error := some errCannotLikePrivate, liked := none,
         likesCount := none }, ndb) := by
    simp only [toggleLikeH, hn]
    rw [if_pos ⟨hpub, hnotOwner⟩]
  have hdup : duplicateNoteH udb ndb noteId userId now newId =
      ({ status := 403, note := none }, ndb) := by
    simp only [duplicateNoteH, hn]
    rw [if_pos ⟨hpub, hnotOwner⟩]
    simp only [ho, hc]
    rw [if_neg hncf]
  have hview : getUserNotesH udb ndb userId note.userId = (403, []) := by
    simp only [getUserNotesH, hc, ho]
    have h1 : decide (userId = note.userId) = false := by
      simp only [decide_eq_false_iff_not]
      exact fun hh => hnotOwner hh.symm
    have h2 : decide (note.userId ∈ cur.friends) = false := by
      simp only [decide_eq_false_iff_not]
      exact hncf
    rw [h1, h2]
    simp
  refine ⟨⟨?_, ?_⟩, ⟨?_, ?_⟩, ?_, ?_⟩
  · rw [hlike]
  · rw [hlike]
  · rw [hdup]
  · rw [hdup]
  · rw [hview]
  · rw [hview]

/-- Witness for C2: user idR, who is not a friend of idO, is refused access to
the private note of idO by all three endpoints. -/
theorem C2_witness :
    SymFriends c2udb ∧
    (((toggleLikeH c2ndb nid1 idR).1.status = 403 ∧
      (toggleLikeH c2ndb nid1 idR).2 = c2ndb) ∧
     ((duplicateNoteH c2udb c2ndb nid1 idR 0 nidD).1.status = 403 ∧
      (duplicateNoteH c2udb c2ndb nid1 idR 0 nidD).2 = c2ndb) ∧
     ((getUserNotesH c2udb c2ndb idR notePriv.userId).1 = 403 ∧
      (getUserNotesH c2udb c2ndb idR notePriv.userId).2 = [])) := by
  have hs : SymFriends c2udb := symFriends_of_all_nil c2udb (by decide)
  exact ⟨hs, C2_private_note_access_forbidden c2udb c2ndb nid1 idR 0 nidD notePriv
    ownerRec reqRec hs (by decide) (by decide) (by decide) (by decide) (by decide) (by decide)⟩

theorem findNote_saveNote (ndb : NoteDB) (n : Note) (x : String) :
    findNote (saveNote ndb n) x =
      if x = n.id then (findNote ndb n.id).map (fun _ => n) else findNote ndb x :=
  findBy_saveBy Note.id ndb n x

theorem findNote_saveNote_at (ndb : NoteDB) (k : String) (m n : Note)
    (hm : findNote ndb k = some m) (hid2 : n.id = k) :
    findNote (saveNote ndb n) k = some n := by
  rw [findNote_saveNote, if_pos hid2.symm, hid2, hm]
  rfl

/-- C3: the like endpoint toggles the requesting user inside the likes array.
If the id is present it is filtered out, otherwise it is appended; the liked
field of the response is true exactly when the id was absent before,
likesCount is the length of the resulting list, and two applications restore
the original membership of the likes list (given the id occurs at most once
initially). -/
theorem C3_like_toggles_membership (ndb : NoteDB) (noteId : String) (userId : UserId)
    (note : Note)
    (hn : findNote ndb noteId = some note)
    (hmay : note.isPublic = true ∨ note.userId = userId)
    (honce : note.likes.count userId ≤ 1) :
    (userId ∈ note.likes →
      (toggleLikeH ndb noteId userId).2 =
        saveNote ndb { note with likes := note.likes.filter (fun i => decide (i ≠ userId)) } ∧
      (toggleLikeH ndb noteId userId).1.liked = some false ∧
      (toggleLikeH ndb noteId userId).1.likesCount =
        some (note.likes.filter (fun i => decide (i ≠ userId))).length) ∧
    (userId ∉ note.likes →
      (toggleLikeH ndb noteId userId).2 = saveNote ndb { note with likes := note.likes ++ [userId] } ∧
      (toggleLikeH ndb noteId userId).1.liked = some true ∧
      (toggleLikeH ndb noteId userId).1.likesCount = some (note.likes ++ [userId]).length) ∧
    (∃ note2,
      findNote (toggleLikeH (toggleLikeH ndb noteId userId).2 noteId userId).2 noteId =
        some note2 ∧
      (∀ x : UserId, x ∈ note2.likes ↔ x ∈ note.likes)) := by
  have hid : note.id = noteId := findBy_key Note.id ndb noteId note hn
  subst hid
  have hguard : ¬(note.isPublic = false ∧ note.userId ≠ userId) := by
    rcases hmay with hp | ho2
    · intro hcon
      rw [hp] at hcon
      exact absurd hcon.1 (by simp)
    · intro hcon
      exact hcon.2 ho2
  by_cases hmem : userId ∈ note.likes
  · have halready : decide (userId ∈ note.likes) = true := by
      simp only [decide_eq_true_eq]
      exact hmem
    have heq1 : toggleLikeH ndb note.id userId =
        ({ status := 200, error := none, liked := some false,
           likesCount := some (note.likes.filter (fun i => decide (i ≠ userId))).length },
         saveNote ndb { note with likes := note.likes.filter (fun i => decide (i ≠ userId)) }) := by
      simp only [toggleLikeH, hn]
      rw [if_neg hguard]
      simp only [halready]
      simp
    refine ⟨fun _ => by rw [heq1]; exact ⟨rfl, rfl, rfl⟩, fun hno => absurd hmem hno, ?_⟩
    rw [heq1]
    have hfind2 := findNote_saveNote_at ndb note.id note
      { note with likes := note.likes.filter (fun i => decide (i ≠ userId)) } hn rfl
    have hnot2 : decide (userId ∈
        ({ note with likes := note.likes.filter (fun i => decide (i ≠ userId)) } : Note).likes) =
        false := by
      simp [List.mem_filter]
    have heq2 : toggleLikeH
        (saveNote ndb { note with likes := note.likes.filter (fun i => decide (i ≠ userId)) })
        note.id userId =
        ({ status := 200, error := none, liked := some true,
           likesCount := some ((note.likes.filter (fun i => decide (i ≠ userId))) ++ [userId]).length },
         saveNote (saveNote ndb { note with likes := note.likes.filter (fun i => decide (i ≠ userId)) })
           { note with likes := (note.likes.filter (fun i => decide (i ≠ userId))) ++ [userId] }) := by
      simp only [toggleLikeH, hfind2]
      rw [if_neg hguard]
      simp only [hnot2]
      simp
    rw [heq2]
    refine ⟨{ note with likes := (note.likes.filter (fun i => decide (i ≠ userId))) ++ [userId] },
      findNote_saveNote_at _ note.id _ _ hfind2 rfl, ?_⟩
    intro x
    simp only [List.mem_append, List.mem_filter, List.mem_singleton, decide_eq_true_eq]
    constructor
    · rintro (⟨hx, _⟩ | hx)
      · exact hx
      · rw [hx]; exact hmem
    · intro hx
      by_cases hxu : x = userId
      · right; exact hxu
      · left; exact ⟨hx, hxu⟩
  · have habsent : decide (userId ∈ note.likes) = false := by
      simp only [decide_eq_false_iff_not]
      exact hmem
    have heq1 : toggleLikeH ndb note.id userId =
        ({ status := 200, error := none, liked := some true,
           likesCount := some (note.likes ++ [userId]).length },
         saveNote ndb { note with likes := note.likes ++ [userId] }) := by
      simp only [toggleLikeH, hn]
      rw [if_neg hguard]
      simp only [habsent]
      simp
    refine ⟨fun hin => absurd hin hmem, fun _ => by rw [heq1]; exact ⟨rfl, rfl, rfl⟩, ?_⟩
    rw [heq1]
    have hfind2 := findNote_saveNote_at ndb note.id note
      { note with likes := note.likes ++ [userId] } hn rfl
    have hmem2 : decide (userId ∈ ({ note with likes := note.likes ++ [userId] } : Note).likes) =
        true := by
      simp
    have heq2 : toggleLikeH (saveNote ndb { note with likes := note.likes ++ [userId] })
        note.id userId =
        ({ status := 200, error := none, liked := some false,
           likesCount := some ((note.likes ++ [userId]).filter (fun i => decide (i ≠ userId))).length },
         saveNote (saveNote ndb { note with likes := note.likes ++ [userId] })
           { note with likes := (note.likes ++ [userId]).filter (fun i => decide (i ≠ userId)) }) := by
      simp only [toggleLikeH, hfind2]
      rw [if_neg hguard]
      simp only [hmem2]
      simp
    rw [heq2]
    refine ⟨{ note with likes := (note.likes ++ [userId]).filter (fun i => decide (i ≠ userId)) },
      findNote_saveNote_at _ note.id _ _ hfind2 rfl, ?_⟩
    intro x
    simp only [List.mem_filter, List.mem_append, List.mem_singleton, decide_eq_true_eq]
    constructor
    · rintro ⟨hx | hx, hxu⟩
      · exact hx
      · exact absurd hx hxu
    · intro hx
      refine ⟨Or.inl hx, ?_⟩
      intro hxu
      rw [hxu] at hx
      exact hmem hx

/-- Witness for C3: idO toggles the like on the public note already liked by idO. -/
theorem C3_witness :
    (findNote c2ndb nid2 = some notePub ∧ (notePub.isPublic = true ∨ notePub.userId = idO) ∧
      notePub.likes.count idO ≤ 1 ∧ idO ∈ notePub.likes) ∧
    (toggleLikeH c2ndb nid2 idO).1.liked = some false := by
  have h := C3_like_toggles_membership c2ndb nid2 idO notePub (by decide)
    (Or.inl (by decide)) (by decide)
  exact ⟨⟨by decide, Or.inl (by decide), by decide, by decide⟩, (h.1 (by decide)).2.1⟩

theorem findOneOwned_some (ndb : NoteDB) (nid : String) (uid : UserId) (note : Note)
    (h : findOneOwned ndb nid uid = some note) :
    findNote ndb nid = some note ∧ note.userId = uid := by
  cases hfn : findNote ndb nid with
  | none =>
    simp only [findOneOwned, hfn] at h
    cases h
  | some m =>
    simp only [findOneOwned, hfn] at h
    by_cases hu : m.userId = uid
    · rw [if_pos hu] at h
      cases h
      exact ⟨rfl, hu⟩
    · rw [if_neg hu] at h
      cases h

theorem findOneTrash_some (ndb : NoteDB) (nid : String) (uid : UserId) (note : Note)
    (h : findOneTrash ndb nid uid = some note) :
    findNote ndb nid = some note ∧ note.userId = uid ∧ note.isDeleted = true := by
  cases hfn : findNote ndb nid with
  | none =>
    simp only [findOneTrash, hfn] at h
    cases h
  | some m =>
    simp only [findOneTrash, hfn] at h
    by_cases hu : m.userId = uid ∧ m.isDeleted = true
    · rw [if_pos hu] at h
      cases h
      exact ⟨rfl, hu.1, hu.2⟩
    · rw [if_neg hu] at h
      cases h

/-- C4: trash is a state machine over the isDeleted flag and deletedAt. A
delete without permanent=true keeps the document but stores isDeleted true and
deletedAt now; restore succeeds only for a note of the requester whose
isDeleted is true (otherwise it answers 404 with the not-in-trash message and
changes nothing) and stores isDeleted false and deletedAt null. -/
theorem C4_trash_state_machine (ndb : NoteDB) (noteId : String) (userId : UserId)
    (now : Nat) (qp : Option String) :
    (qp ≠ some strTrue → ∀ note, findOneOwned ndb noteId userId = some note →
      (deleteNoteH ndb noteId userId qp now).1 = { status := 200, text := msgMovedTrash } ∧
      (deleteNoteH ndb noteId userId qp now).2 =
        saveNote ndb { note with isDeleted := true, deletedAt := some now } ∧
      findNote (deleteNoteH ndb noteId userId qp now).2 noteId =
        some { note with isDeleted := true, deletedAt := some now }) ∧
    (findOneTrash ndb noteId userId = none →
      (restoreNoteH ndb noteId userId).1 = { status := 404, text := errNotInTrash } ∧
      (restoreNoteH ndb noteId userId).2 = ndb) ∧
    (∀ note, findOneTrash ndb noteId userId = some note →
      note.isDeleted = true ∧ note.userId = userId ∧
      (restoreNoteH ndb noteId userId).1 = { status := 200, text := msgRestored } ∧
      findNote (restoreNoteH ndb noteId userId).2 noteId =
        some { note with isDeleted := false, deletedAt := none }) := by
  refine ⟨?_, ?_, ?_⟩
  · intro hqp note hfo
    obtain ⟨hfn, hu⟩ := findOneOwned_some ndb noteId userId note hfo
    have hid : note.id = noteId := findBy_key Note.id ndb noteId note hfn
    have heq : deleteNoteH ndb noteId userId qp now =
        ({ status := 200, text := msgMovedTrash },
          saveNote ndb { note with isDeleted := true, deletedAt := some now }) := by
      simp only [deleteNoteH, hfo]
      rw [if_neg hqp]
    refine ⟨by rw [heq], by rw [heq], ?_⟩
    rw [heq]
    exact findNote_saveNote_at ndb noteId note _ hfn hid
  · intro hnone
    have heq : restoreNoteH ndb noteId userId =
        ({ status := 404, text := errNotInTrash }, ndb) := by
      simp only [restoreNoteH, hnone]
    exact ⟨by rw [heq], by rw [heq]⟩
  · intro note hfo
    obtain ⟨hfn, hu, hd⟩ := findOneTrash_some ndb noteId userId note hfo
    have hid : note.id = noteId := findBy_key Note.id ndb noteId note hfn
    have heq : restoreNoteH ndb noteId userId =
        ({ status := 200, text := msgRestored },
          saveNote ndb { note with isDeleted := false, deletedAt := none }) := by
      simp only [restoreNoteH, hfo]
    refine ⟨hd, hu, by rw [heq], ?_⟩
    rw [heq]
    exact findNote_saveNote_at ndb noteId note _ hfn hid

/-- Witness for C4: soft delete of an active note, failed restore of a
non-trashed note, and successful restore of a trashed note. -/
theorem C4_witness :
    ((none : Option String) ≠ some strTrue ∧
     findOneOwned c2ndb nid2 idO = some notePub ∧
     findOneTrash c2ndb nid2 idO = none ∧
     findOneTrash c2ndb nid9 idO = some noteTrash) ∧
    ((deleteNoteH c2ndb nid2 idO none 9).1 = { status := 200, text := msgMovedTrash } ∧
     (restoreNoteH c2ndb nid2 idO).1 = { status := 404, text := errNotInTrash } ∧
     (restoreNoteH c2ndb nid9 idO).1 = { status := 200, text := msgRestored }) := by
  have hth := C4_trash_state_machine c2ndb nid2 idO 9 none
  have hth9 := C4_trash_state_machine c2ndb nid9 idO 9 none
  refine ⟨⟨by decide, by decide, by decide, by decide⟩, ?_, ?_, ?_⟩
  · exact (hth.1 (by decide) notePub (by decide)).1
  · exact (hth.2.1 (by decide)).1
  · exact (hth9.2.2 noteTrash (by decide)).2.2.1

/-- Counterexample for C5 as stated: with no stored user carrying the requested
email, registration with a five-character-or-shorter password still creates no
user and fails with the password-length error, so the otherwise-a-new-user-is-
created clause of the claim does not hold unconditionally. -/
theorem C5_counterexample :
    ¬ (∃ u ∈ ([] : UserDB), u.email = toLowerStr mailA) ∧
    (registerH hashId [] mailA shortPwd nameA idU tok0).2 = [] ∧
    (registerH hashId [] mailA shortPwd nameA idU tok0).1 =
      { status := 400, error := some errPwdLen } := by
  refine ⟨?_, by decide, by decide⟩
  rintro ⟨u, hu, _⟩
  exact absurd hu (List.not_mem_nil u)

/-- C5 (amended): user email is unique at registration. Given all fields
present and a password of at least six characters, registration answers 400
with the already-registered error and creates no user exactly when a stored
user already carries the lowercased requested email; otherwise it appends a
new user whose stored email is the lowercased requested email. -/
theorem C5_register_email_unique (hash : String → String) (udb : UserDB)
    (email password name : String) (newId : UserId) (tok : String)
    (hv : ¬(email = "" ∨ password = "" ∨ name = ""))
    (hlen : ¬ password.length < 6) :
    ((∃ u ∈ udb, u.email = toLowerStr email) →
      (registerH hash udb email password name newId tok).1 =
        { status := 400, error := some errEmailTaken } ∧
      (registerH hash udb email password name newId tok).2 = udb) ∧
    ((¬ ∃ u ∈ udb, u.email = toLowerStr email) →
      (registerH hash udb email password name newId tok).1 =
        { status := 201, error := none } ∧
      (registerH hash udb email password name newId tok).2 =
        udb ++ [{ defaultUserFields with
          id := newId, email := toLowerStr email, password := hash password, name := name,
          refreshToken := some tok }]) := by
  unfold registerH
  rw [if_neg hv, if_neg hlen]
  cases hfind : udb.find? (fun u => decide (u.email = toLowerStr email)) with
  | some w =>
    constructor
    · intro _
      exact ⟨rfl, rfl⟩
    · intro hno
      exfalso
      apply hno
      refine ⟨w, List.mem_of_find?_eq_some hfind, ?_⟩
      have := List.find?_some hfind
      simpa using this
  | none =>
    constructor
    · rintro ⟨u, hu, he⟩
      exfalso
      have := List.find?_eq_none.mp hfind u hu
      simp only [decide_eq_true_eq] at this
      exact this he
    · intro _
      exact ⟨rfl, rfl⟩

/-- Witness for C5: registering the same address twice, up to case, is refused
the second time; registering against an empty collection succeeds. -/
theorem C5_witness :
    (¬(mailA = "" ∨ pwd6 = "" ∨ nameA = "") ∧ ¬ pwd6.length < 6) ∧
    ((registerH hashId c5db mailA pwd6 nameA idV tok0).1 =
      { status := 400, error := some errEmailTaken } ∧
     (registerH hashId c5db mailA pwd6 nameA idV tok0).2 = c5db) ∧
    (registerH hashId [] mailA pwd6 nameA idU tok0).1 = { status := 201, error := none } := by
  have h1 := C5_register_email_unique hashId c5db mailA pwd6 nameA idV tok0
    (by decide) (by decide)
  have h2 := C5_register_email_unique hashId [] mailA pwd6 nameA idU tok0
    (by decide) (by decide)
  refine ⟨⟨by decide, by decide⟩, h1.1 ⟨c5User, by decide, by decide⟩, ?_⟩
  refine (h2.2 ?_).1
  rintro ⟨u, hu, _⟩
  exact absurd hu (List.not_mem_nil u)

theorem length_processImagesFrom (upload : String → UploadResult) (genId : Nat → String) :
    ∀ (i : Nat) (images : List Image),
      (processImagesFrom upload genId i images).length = images.length := by
  intro i images
  induction images generalizing i with
  | nil => rfl
  | cons a l ih => simp [processImagesFrom, ih]

theorem get?_processImagesFrom (upload : String → UploadResult) (genId : Nat → String) :
    ∀ (images : List Image) (i k : Nat),
      (processImagesFrom upload genId i images).get? k =
        (images.get? k).map (fun img => processOne upload genId (i + k) img) := by
  intro images
  induction images with
  | nil => intro i k; simp [processImagesFrom]
  | cons a l ih =>
    intro i k
    cases k with
    | zero => simp [processImagesFrom]
    | succ m =>
      simp only [processImagesFrom, List.get?_cons_succ]
      rw [ih (i + 1) m, Nat.add_assoc, Nat.add_comm 1 m]

/-- C6: images are uploaded conditionally. In the create and update handlers,
each image of the request whose url begins with the data-URL marker is replaced
by an uploaded copy (url and publicId from the upload service, id the given id
when truthy or a freshly generated one), and every other image is stored
exactly as given. -/
theorem C6_conditional_image_upload (upload : String → UploadResult) (genId : Nat → String)
    (images : List Image) (k : Nat) (img : Image)
    (hk : images.get? k = some img) :
    (processImages upload genId images).length = images.length ∧
    (startsWithStr img.url dataMark = true →
      (processImages upload genId images).get? k =
        some { id := if img.id = "" then genId k else img.id,
               url := (upload img.url).url,
               publicId := (upload img.url).publicId }) ∧
    (startsWithStr img.url dataMark = false →
      (processImages upload genId images).get? k = some img) ∧
    (∀ (ndb : NoteDB) (userId : UserId) (body : CreateBody) (now : Nat) (newId : String),
      body.images = some images →
      (createNoteH upload genId ndb userId body now newId).1.images =
        processImages upload genId images) ∧
    (∀ (ndb : NoteDB) (noteId : String) (userId : UserId) (body : UpdateBody) (now : Nat)
        (note : Note),
      body.images = some images →
      findOneOwned ndb noteId userId = some note →
      ∃ n2 : Note,
        (updateNoteH upload genId ndb noteId userId body now).2 = saveNote ndb n2 ∧
        n2.images = processImages upload genId images) := by
  refine ⟨length_processImagesFrom upload genId 0 images, ?_, ?_, ?_, ?_⟩
  · intro hdata
    rw [processImages, get?_processImagesFrom upload genId images 0 k, hk]
    simp [processOne, hdata]
  · intro hdata
    rw [processImages, get?_processImagesFrom upload genId images 0 k, hk]
    simp [processOne, hdata]
  · intro ndb userId body now newId hbi
    simp [createNoteH, hbi]
  · intro ndb noteId userId body now note hbi hfo
    refine ⟨{ note with
        title := if body.title = "" then strUntitled else body.title,
        content := body.content.getD note.content,
        color := body.color.getD note.color,
        images := processImages upload genId (body.images.getD []),
        date := now,
        isPinned := body.isPinned.getD note.isPinned,
        isArchived := body.isArchived.getD note.isArchived }, ?_, ?_⟩
    · simp only [updateNoteH, hfo]
    · simp [hbi]

/-- Witness for C6: a two-image list holding one data-URL image without id and
one plain image. -/
theorem C6_witness :
    (imgs0.get? 0 = some imgData ∧ startsWithStr imgData.url dataMark = true ∧
     (processImages upload0 genId0 imgs0).get? 0 =
       some { id := if imgData.id = "" then genId0 0 else imgData.id,
              url := (upload0 imgData.url).url,
              publicId := (upload0 imgData.url).publicId }) ∧
    (imgs0.get? 1 = some imgPlain ∧ startsWithStr imgPlain.url dataMark = false ∧
     (processImages upload0 genId0 imgs0).get? 1 = some imgPlain) := by
  have h0 := C6_conditional_image_upload upload0 genId0 imgs0 0 imgData (by decide)
  have h1 := C6_conditional_image_upload upload0 genId0 imgs0 1 imgPlain (by decide)
  exact ⟨⟨by decide, by decide, h0.2.1 (by decide)⟩,
    ⟨by decide, by decide, h1.2.2.1 (by decide)⟩⟩

/-- C7: every notes route is behind the auth middleware. A request that does
not pass authentication is answered 401, reaches no handler, leaves the notes
collection unchanged, and receives no note data, whatever the route. -/
theorem C7_auth_gates_all_routes (upload : String → UploadResult) (genId : Nat → String)
    (udb : UserDB) (ndb : NoteDB) (now : Nat) (route : NotesRoute) :
    notesApp upload genId udb ndb none now route =
      { status := 401, db := ndb, notes := [], views := [] } := rfl

/-- C8: a note created through the create endpoint starts with isArchived
false, isDeleted false, empty likes and, the handler never setting the flag,
isPublic true by schema default; a duplicated note is likewise created with
isPublic true, isPinned false and an empty likes list, owned by the requester. -/
theorem C8_created_note_defaults (upload : String → UploadResult) (genId : Nat → String)
    (udb : UserDB) (ndb : NoteDB) (userId : UserId) (body : CreateBody) (now : Nat)
    (newId : String) (noteId : String) (now2 : Nat) (newId2 : String) :
    ((createNoteH upload genId ndb userId body now newId).1.isArchived = false ∧
     (createNoteH upload genId ndb userId body now newId).1.isDeleted = false ∧
     (createNoteH upload genId ndb userId body now newId).1.likes = [] ∧
     (createNoteH upload genId ndb userId body now newId).1.isPublic = true ∧
     (createNoteH upload genId ndb userId body now newId).1.userId = userId ∧
     (createNoteH upload genId ndb userId body now newId).2 =
       ndb ++ [(createNoteH upload genId ndb userId body now newId).1]) ∧
    (∀ d, (duplicateNoteH udb ndb noteId userId now2 newId2).1.note = some d →
      d.isPublic = true ∧ d.isPinned = false ∧ d.likes = [] ∧ d.userId = userId ∧
      (duplicateNoteH udb ndb noteId userId now2 newId2).2 = ndb ++ [d]) := by
  constructor
  · exact ⟨rfl, rfl, rfl, rfl, rfl, rfl⟩
  · intro d hd
    cases hfn : findNote ndb noteId with
    | none =>
      simp only [duplicateNoteH, hfn] at hd
      cases hd
    | some orig =>
      simp only [duplicateNoteH, hfn] at hd ⊢
      by_cases hg : orig.isPublic = false ∧ orig.userId ≠ userId
      · rw [if_pos hg] at hd ⊢
        cases h1 : findUser udb orig.userId with
        | none =>
          simp only [h1] at hd
          cases hd
        | some ow =>
          cases h2 : findUser udb userId with
          | none =>
            simp only [h1, h2] at hd
            cases hd
          | some cur =>
            simp only [h1, h2] at hd ⊢
            by_cases hf : orig.userId ∈ cur.friends
            · rw [if_pos hf] at hd ⊢
              cases hd
              exact ⟨rfl, rfl, rfl, rfl, rfl⟩
            · rw [if_neg hf] at hd
              cases hd
      · rw [if_neg hg] at hd ⊢
        cases hd
        exact ⟨rfl, rfl, rfl, rfl, rfl⟩

/-- Witness for C8: duplicating the public note of idO as user idR. -/
theorem C8_witness :
    (duplicateNoteH c2udb c2ndb nid2 idR 9 nidD).1.note = some (dupNote notePub idR 9 nidD) ∧
    ((dupNote notePub idR 9 nidD).isPublic = true ∧
     (dupNote notePub idR 9 nidD).isPinned = false ∧
     (dupNote notePub idR 9 nidD).likes = [] ∧
     (dupNote notePub idR 9 nidD).userId = idR ∧
     (duplicateNoteH c2udb c2ndb nid2 idR 9 nidD).2 = c2ndb ++ [dupNote notePub idR 9 nidD]) := by
  have h := C8_created_note_defaults upload0 genId0 c2udb c2ndb idR body0 9 nidD nid2 9 nidD
  exact ⟨by decide, h.2 (dupNote notePub idR 9 nidD) (by decide)⟩

/-- C9: the three list views of GET / partition the notes of the authenticated
user: the deleted view matches exactly when isDeleted is set, the archived view
exactly when isDeleted is unset and isArchived set, the default view exactly
when both are unset, and exactly one of the three filters matches any owned
note. -/
theorem C9_list_views_partition (userId : UserId) (n : Note) (h : n.userId = userId) :
    (listFilter none (some strTrue) userId n = n.isDeleted) ∧
    (listFilter (some strTrue) none userId n = (!n.isDeleted && n.isArchived)) ∧
    (listFilter none none userId n = (!n.isDeleted && !n.isArchived)) ∧
    ((listFilter none (some strTrue) userId n = true ∧
      listFilter (some strTrue) none userId n = false ∧
      listFilter none none userId n = false) ∨
     (listFilter none (some strTrue) userId n = false ∧
      listFilter (some strTrue) none userId n = true ∧
      listFilter none none userId n = false) ∨
     (listFilter none (some strTrue) userId n = false ∧
      listFilter (some strTrue) none userId n = false ∧
      listFilter none none userId n = true)) := by
  unfold listFilter
  rw [h]
  cases hD : n.isDeleted <;> cases hA : n.isArchived <;> simp [hD, hA]

/-- Witness for C9: the active public note of idO is matched by the default
view only. -/
theorem C9_witness :
    notePub.userId = idO ∧ listFilter none none idO notePub = true := by
  have h := C9_list_views_partition idO notePub (by decide)
  refine ⟨by decide, ?_⟩
  rw [h.2.2.1]
  decide

theorem sortNotes_sorted (l : List Note) : List.Sorted noteLE (sortNotes l) :=
  List.sorted_insertionSort noteLE l

/-- C10: both note-listing endpoints return notes with every pinned note before
every unpinned note and, within each group, dates descending. -/
theorem C10_listing_pinned_then_date_desc (udb : UserDB) (ndb : NoteDB) (userId : UserId)
    (qarchived qdeleted : Option String) (target : UserId) :
    List.Pairwise (fun a b =>
      (b.isPinned = true → a.isPinned = true) ∧ (a.isPinned = b.isPinned → b.date ≤ a.date))
      (getNotesH ndb userId qarchived qdeleted) ∧
    List.Pairwise (fun a b =>
      (b.isPinned = true → a.isPinned = true) ∧ (a.isPinned = b.isPinned → b.date ≤ a.date))
      (getUserNotesH udb ndb userId target).2 := by
  have himp : ∀ a b : Note, noteLE a b →
      (b.isPinned = true → a.isPinned = true) ∧ (a.isPinned = b.isPinned → b.date ≤ a.date) := by
    intro a b hab
    rcases hab with ⟨ha, hb⟩ | ⟨heq, hd⟩
    · constructor
      · intro hbt
        rw [hb] at hbt
        cases hbt
      · intro habe
        rw [ha, hb] at habe
        cases habe
    · exact ⟨fun hbt => heq.trans hbt, fun _ => hd⟩
  constructor
  · exact List.Pairwise.imp (fun hab => himp _ _ hab) (sortNotes_sorted _)
  · unfold getUserNotesH
    cases h1 : findUser udb userId with
    | none => simp
    | some cu =>
      cases h2 : findUser udb target with
      | none => simp
      | some tu =>
        simp only []
        by_cases hb1 : (!decide (userId = target) && !decide (target ∈ cu.friends)) = true
        · rw [if_pos hb1]
          simp
        · rw [if_neg hb1]
          by_cases hb2 : (!decide (userId = target) && tu.isPrivate) = true
          · rw [if_pos hb2]
            simp
          · rw [if_neg hb2]
            simp only []
            rw [List.pairwise_map]
            refine List.Pairwise.imp ?_ (sortNotes_sorted _)
            intro a b hab
            exact himp a b hab

end Notu
